import Mathlib

/-!
Shallow embedding of the connection-classification and reverse-dialing
primitives of the `progutil` package (proxy/progutil/progutil.go and the
historical variant in the repository's unnamed part_001), together with the
TLS-SNI splitter.  Connections are identified by natural-number ids, byte
streams by lists of bytes, and the stateful Go code is rendered as explicit
state-passing functions.  The `int32` pool counters are modelled as `Int`;
their values stay within a handful of units of zero in every property proved
here, so 32-bit wrap-around is immaterial.
-/

namespace Progutil

/-- A byte on the wire. -/
abbrev Byte := Nat

/-- The error values the embedded code can produce, with the `Temporary()`
classification each has in Go.  `tempErr` is progutil's own retryable error
type; `deadlineExceeded` is `context.DeadlineExceeded` (whose `Temporary()`
is `true` in Go); `opErrDialerClosing` is the `&net.OpError{Op: "dial",
Err: fmt.Errorf("dialer closing")}` value, whose inner error implements no
`Temporary()` method, so the `OpError` reports non-temporary; `notRegistered`
is the `fmt.Errorf("'%v' not registered in proxy", addr)` plain error. -/
inductive GoErr where
  | tempErr : GoErr
  | deadlineExceeded : GoErr
  | opErrDialerClosing : GoErr
  | notRegistered (addr : String) : GoErr
  | eof : GoErr
  | acceptorFailure (code : Nat) : GoErr
deriving DecidableEq, Repr

/-- `Temporary()` as Go's `net` package computes it for each error value. -/
def GoErr.isTemporary : GoErr → Bool
  | .tempErr => true
  | .deadlineExceeded => true
  | .opErrDialerClosing => false
  | .notRegistered _ => false
  | .eof => false
  | .acceptorFailure _ => false

/-! ### The reconstructed reader

`Accept` rebuilds the client connection as
`readerConn{conn, io.MultiReader(io.MultiReader(bytes.NewBuffer(packet), conn), conn)}`.
The two occurrences of `conn` share the same underlying stream, so a reader
is interpreted against a mutable remainder of the connection's bytes. -/

/-- The shape of readers that occur in the reconstruction: a byte buffer, the
underlying connection, or `io.MultiReader` of two readers. -/
inductive Reader where
  | buf : List Byte → Reader
  | conn : Reader
  | multi2 : Reader → Reader → Reader

/-- Read a reader to exhaustion; the second component is what remains of the
underlying connection afterwards (both occurrences of `.conn` share it). -/
def Reader.readAll : Reader → List Byte → List Byte × List Byte
  | .buf bs, rest => (bs, rest)
  | .conn, rest => (rest, [])
  | .multi2 a b, rest =>
    let p := a.readAll rest
    let q := b.readAll p.2
    (p.1 ++ q.1, q.2)

/-- The reader installed on the reconstructed client connection. -/
def readerConn (packet : List Byte) : Reader :=
  .multi2 (.multi2 (.buf packet) .conn) .conn

/-- Total bytes the reconstructed connection delivers when the underlying
connection still holds `rest`. -/
def readerConnDelivers (packet rest : List Byte) : List Byte :=
  ((readerConn packet).readAll rest).1

theorem readerConnDelivers_eq (packet rest : List Byte) :
    readerConnDelivers packet rest = packet ++ rest := by
  simp [readerConnDelivers, readerConn, Reader.readAll]

/-! ### PrefaceListener (proxy/progutil/progutil.go) -/

/-- The byte token `"EVA"`. -/
def evaToken : List Byte := [69, 86, 65]

/-- The byte token `"ELA"`. -/
def elaToken : List Byte := [69, 76, 65]

/-- The pair of capacity-1 conn channels kept per registered appliance
address (`applianceChans`).  A channel is a FIFO list of conn ids whose
length never exceeds 1. -/
structure Chans where
  eva : List Nat
  ela : List Nat
deriving DecidableEq, Repr

/-- State of a `PrefaceListener`: the address → channels map (`l.ch`,
newest registration first) and the set of conn ids the listener has
closed. -/
structure PLState where
  hosts : List (String × Chans)
  closedConns : List Nat
deriving DecidableEq, Repr

/-- `l.ch[addr]` lookup. -/
def lookupHost (hosts : List (String × Chans)) (addr : String) : Option Chans :=
  (hosts.find? (fun p => p.1 = addr)).map Prod.snd

/-- `RegisterHost` sets `l.ch[addr]` to a pair of fresh empty capacity-1
channels; a prepended entry shadows any older one, matching map
assignment. -/
def RegisterHost (s : PLState) (addr : String) : PLState :=
  { s with hosts := (addr, ⟨[], []⟩) :: s.hosts }

/-- The two back-to-back `select` statements of `storeConn`: non-blocking
drain of any previous conn (closing it), then non-blocking store of the new
conn, closing it instead when the channel is already full.  Returns the new
channel contents and closed-conn list. -/
def drainThenStore (ch : List Nat) (c : Nat) (closed : List Nat) :
    List Nat × List Nat :=
  let d : List Nat × List Nat :=
    match ch with
    | old :: rest => (rest, old :: closed)
    | [] => (ch, closed)
  if d.1.length < 1 then (d.1 ++ [c], d.2) else (d.1, c :: d.2)

/-- `storeConn(conn, agent)`: look up the peer's registration; when absent,
log and return (the connection is neither stored nor closed); otherwise
drain-then-store into the channel selected by the agent token.  An agent
other than `"EVA"`/`"ELA"` is logged and dropped without closing. -/
def storeConn (s : PLState) (connId : Nat) (addr : String) (agent : List Byte) :
    PLState :=
  match lookupHost s.hosts addr with
  | none => s
  | some apc =>
    if agent = evaToken then
      let r := drainThenStore apc.eva connId s.closedConns
      { s with
        hosts := s.hosts.map (fun p => if p.1 = addr then (p.1, ⟨r.1, p.2.ela⟩) else p),
        closedConns := r.2 }
    else if agent = elaToken then
      let r := drainThenStore apc.ela connId s.closedConns
      { s with
        hosts := s.hosts.map (fun p => if p.1 = addr then (p.1, ⟨p.2.eva, r.1⟩) else p),
        closedConns := r.2 }
    else s

/-- One freshly accepted underlying connection as `Accept` sees it: its id,
the peer host (already split from the remote address), the total byte
stream the connection will deliver, and the outcome of the single
`conn.Read(packet)` into the 3-byte buffer: `firstReadLen` bytes delivered
(at most 3) and whether an error accompanied them (the code only logs it). -/
structure Arrival where
  connId : Nat
  remoteHost : String
  stream : List Byte
  firstReadLen : Nat
  firstReadFailed : Bool
deriving DecidableEq, Repr

/-- Result of one `PrefaceListener.Accept` call. -/
inductive AcceptResult where
  | client (connId : Nat) (delivered : List Byte) : AcceptResult
  | acceptError (e : GoErr) : AcceptResult
deriving DecidableEq, Repr

/-- The body of `PrefaceListener.Accept` after a successful underlying
accept: slice the packet to the bytes actually read, compare it against the
role tokens, store role connections (then return `tempErr{}` so the caller
retries), and otherwise return the client connection with its reconstructed
reader. -/
def acceptOne (s : PLState) (a : Arrival) : AcceptResult × PLState :=
  let packet := a.stream.take a.firstReadLen
  let rest := a.stream.drop a.firstReadLen
  if packet = evaToken then
    (.acceptError .tempErr, storeConn s a.connId a.remoteHost packet)
  else if packet = elaToken then
    (.acceptError .tempErr, storeConn s a.connId a.remoteHost packet)
  else
    (.client a.connId (readerConnDelivers packet rest), s)

/-- What the wrapped acceptor hands `Accept`: either a failure of
`l.Listener.Accept` (propagated unchanged) or a new connection. -/
inductive AcceptEvent where
  | acceptFail (e : GoErr) : AcceptEvent
  | arrival (a : Arrival) : AcceptEvent
deriving DecidableEq, Repr

/-- One full `PrefaceListener.Accept` call. -/
def plAccept (s : PLState) : AcceptEvent → AcceptResult × PLState
  | .acceptFail e => (.acceptError e, s)
  | .arrival a => acceptOne s a

/-! ### The handoff slot under interleaved store and claim operations

`storeConn`'s two `select` statements are not atomic as a pair: a claimant's
channel receive (in `dialCommon`) or another `storeConn` may run in between.
Each `select` arm and each receive is one atomic step of the capacity-1
channel, modelled as a micro-step machine over the channel contents. -/

/-- The capacity-1 channel plus the record of what was closed and what a
claimant received. -/
structure SlotState where
  buf : List Nat
  closedConns : List Nat
  claimed : List Nat
deriving DecidableEq, Repr

/-- Atomic channel operations: `drain` is `storeConn`'s first non-blocking
receive (closing what it gets), `send c` its non-blocking send (closing `c`
when the channel is full), `claim` a dialer's receive (a no-op here while
the channel is empty: the blocked receiver simply keeps waiting). -/
inductive SlotStep where
  | drain : SlotStep
  | send (c : Nat) : SlotStep
  | claim : SlotStep
deriving DecidableEq, Repr

def slotStep (s : SlotState) : SlotStep → SlotState
  | .drain =>
    match s.buf with
    | old :: rest => { s with buf := rest, closedConns := old :: s.closedConns }
    | [] => s
  | .send c =>
    if s.buf.length < 1 then { s with buf := s.buf ++ [c] }
    else { s with closedConns := c :: s.closedConns }
  | .claim =>
    match s.buf with
    | c :: rest => { s with buf := rest, claimed := c :: s.claimed }
    | [] => s

def runSlot (s : SlotState) : List SlotStep → SlotState :=
  List.foldl slotStep s

/-- The claim C2's race clause as stated: whenever a claimant drained the
slot between a store operation's drain step and its send step (observable as
a growth of `claimed` during the interval), the newly stored connection ends
up closed. -/
def claimRaceDropsNewConn : Prop :=
  ∀ (s0 : SlotState) (mid : List SlotStep) (c : Nat),
    (runSlot (slotStep s0 .drain) mid).claimed ≠ (slotStep s0 .drain).claimed →
    c ∈ (slotStep (runSlot (slotStep s0 .drain) mid) (.send c)).closedConns

/-! ### PrefaceListener variant of part_001: client-preface scan and an
internal accept loop -/

/-- `http2.ClientPreface`, as bytes. -/
def clientPreface : List Byte :=
  (String.toList "PRI * HTTP/2.0\r\n\r\nSM\r\n\r\n").map Char.toNat

/-- The part_001 preface scan: one 1-byte read per preface position,
appending each successfully read byte to `consumed` and breaking on the
first read error or mismatching byte.  Arguments: preface bytes still to
match, remaining stream, index of the first erroring read (if any), current
index.  Returns (classified as client, consumed bytes, remaining stream).
A failing read is modelled as delivering no byte. -/
def p1ScanConsume : List Byte → List Byte → Option Nat → Nat →
    Bool × List Byte × List Byte
  | [], stream, _, _ => (true, [], stream)
  | p :: ps, stream, failAt, i =>
    if failAt = some i then (false, [], stream)
    else
      match stream with
      | [] => (false, [], [])
      | b :: rest =>
        if b = p then
          let r := p1ScanConsume ps rest failAt (i + 1)
          (r.1, b :: r.2.1, r.2.2)
        else (false, [b], rest)

/-- A connection as the part_001 `Accept` sees it: its id, its byte stream,
and the index of the first 1-byte preface read that errors, if any. -/
structure P1Arrival where
  connId : Nat
  stream : List Byte
  readFailAt : Option Nat
deriving DecidableEq, Repr

inductive P1Event where
  | acceptFail (e : GoErr) : P1Event
  | arrival (a : P1Arrival) : P1Event
deriving DecidableEq, Repr

/-- The part_001 listener state: its single capacity-1 conn channel `l.ch`
and the conns it closed. -/
structure P1State where
  ch : List Nat
  closedConns : List Nat
deriving DecidableEq, Repr

/-- The drain-then-store block of the part_001 `Accept` (same shape as
`storeConn`'s). -/
def p1Store (s : P1State) (c : Nat) : P1State :=
  let r := drainThenStore s.ch c s.closedConns
  ⟨r.1, r.2⟩

/-- part_001 `Accept`: scan the preface; a full match returns the client
connection with its reconstructed reader; otherwise the connection is a
server one — store it and recurse (`return l.Accept()`).  An acceptor
failure is propagated.  `none` models the call still blocked on the
underlying acceptor once the event list runs out. -/
def p1Accept (s : P1State) : List P1Event → Option (AcceptResult × P1State)
  | [] => none
  | .acceptFail e :: _ => some (.acceptError e, s)
  | .arrival a :: rest =>
    let scan := p1ScanConsume clientPreface a.stream a.readFailAt 0
    if scan.1 then some (.client a.connId (readerConnDelivers scan.2.1 scan.2.2), s)
    else p1Accept (p1Store s a.connId) rest

/-- The claim C5's error clause as stated, for the progutil variant: Accept
never returns an error for a role-tagged arrival while the wrapped acceptor
is healthy. -/
def acceptNeverErrsOnRoleArrival : Prop :=
  ∀ (s : PLState) (a : Arrival),
    (a.stream.take a.firstReadLen = evaToken ∨
      a.stream.take a.firstReadLen = elaToken) →
    ∀ e, (acceptOne s a).1 ≠ .acceptError e

/-- The claim C7 as stated: a role-tagged connection arriving from an
unregistered address is closed by the classifier. -/
def unregisteredRoleConnClosed : Prop :=
  ∀ (s : PLState) (a : Arrival),
    (a.stream.take a.firstReadLen = evaToken ∨
      a.stream.take a.firstReadLen = elaToken) →
    lookupHost s.hosts a.remoteHost = none →
    a.connId ∈ (acceptOne s a).2.closedConns

/-! ### The connection health tracker (`notifyOnNetErr`, progutil.go)

Each underlying `Read`/`Write` result carries an error classified the way
the wrapper's guard classifies it: `ok` (nil error), `temporary` (a
`net.Error` whose `Temporary()` is true), or `terminal` (any other non-nil
error).  The `sync.Once` guards are the `onceErr`/`onceRead` booleans. -/

inductive ErrKind where
  | ok : ErrKind
  | temporary : ErrKind
  | terminal : ErrKind
deriving DecidableEq, Repr

/-- The mutable fields of one `notifyOnNetErr` wrapper. -/
structure ConnState where
  activeFlag : Bool
  onceErr : Bool
  onceRead : Bool
deriving DecidableEq, Repr

/-- A connection as `DialListener.Accept` returns it. -/
def freshConn : ConnState := ⟨false, false, false⟩

/-- The `DialListener`'s pool counters (`int32` in Go; their magnitudes stay
far below 2^31 in everything proved here, so wrap-around is ignored). -/
structure Pool where
  established : Int
  active : Int
deriving DecidableEq, Repr

/-- One operation on a tracked connection, with the underlying connection's
result: `read n e` is a `Read` in which the wrapped connection delivered
`n` bytes with error class `e`; likewise `write`; `close` is `Close`. -/
inductive ConnOp where
  | read (n : Nat) (e : ErrKind) : ConnOp
  | write (e : ErrKind) : ConnOp
  | close : ConnOp
deriving DecidableEq, Repr

/-- The one-shot error accounting (`conn.onceErr.Do`): decrement
`established` and, when the connection had carried a byte, `active`. -/
def fireErr (c : ConnState) (p : Pool) : ConnState × Pool :=
  if c.onceErr then (c, p)
  else ({ c with onceErr := true },
        { established := p.established - 1,
          active := if c.activeFlag then p.active - 1 else p.active })

/-- One `Read`/`Write`/`Close` on a `notifyOnNetErr` wrapper: a terminal
error fires the error accounting and returns; otherwise a read that
delivered at least one byte runs `conn.onceRead.Do`, marking the connection
active and incrementing `active`; `Close` always runs the error
accounting. -/
def connStep (c : ConnState) (p : Pool) : ConnOp → ConnState × Pool
  | .read n e =>
    if e = .terminal then fireErr c p
    else if n = 0 then (c, p)
    else if c.onceRead then (c, p)
    else ({ c with onceRead := true, activeFlag := true },
          { p with active := p.active + 1 })
  | .write e => if e = .terminal then fireErr c p else (c, p)
  | .close => fireErr c p

def connRun (c : ConnState) (p : Pool) : List ConnOp → ConnState × Pool
  | [] => (c, p)
  | op :: ops =>
    let r := connStep c p op
    connRun r.1 r.2 ops

/-- Whether an operation triggers the terminal accounting: a `Read` or
`Write` observing a terminal error, or any `Close`. -/
def terminalEvent : ConnOp → Bool
  | .read _ e => e = .terminal
  | .write e => e = .terminal
  | .close => true

/-- Whether an operation runs `onceRead.Do`: a read delivering at least one
byte whose error, if any, is not terminal. -/
def marksActive : ConnOp → Bool
  | .read n e => decide (n ≠ 0) && decide (e ≠ .terminal)
  | _ => false

/-- The connection carried a byte strictly before its first terminal
event. -/
def carriedBeforeFailure (ops : List ConnOp) : Bool :=
  (ops.takeWhile (fun o => ! terminalEvent o)).any marksActive

/-- Closed form of the `established` adjustment `connRun` makes. -/
def estDelta (c : ConnState) (ops : List ConnOp) : Int :=
  if !c.onceErr && ops.any terminalEvent then 1 else 0

/-- Closed form of the increment `connRun` makes to `active`. -/
def actIncDelta (c : ConnState) (ops : List ConnOp) : Int :=
  if !c.onceRead && ops.any marksActive then 1 else 0

/-- Closed form of the decrement `connRun` makes to `active`. -/
def actDecDelta (c : ConnState) (ops : List ConnOp) : Int :=
  if !c.onceErr && ops.any terminalEvent &&
      (c.activeFlag ||
        (!c.onceRead && (ops.takeWhile (fun o => ! terminalEvent o)).any marksActive))
  then 1 else 0

/-! ### DialListener (progutil.go) -/

/-- A `DialListener` with its role name, its tracked connections in accept
order, and the shared pool counters. -/
structure PoolListener where
  name : List Byte
  conns : List ConnState
  pool : Pool
deriving DecidableEq, Repr

def initListener (name : List Byte) : PoolListener := ⟨name, [], ⟨0, 0⟩⟩

/-- What `DialListener.Accept` returns: a tracked connection (its index and
the bytes written on its wire before it was handed out) or an error. -/
inductive DialResult where
  | conn (index : Nat) (wireBytes : List Byte) : DialResult
  | dialError (e : GoErr) : DialResult
deriving DecidableEq, Repr

/-- `DialListener.Accept`: with a spare connection (`established > active`)
sleep one second and return `tempErr{}`; otherwise make exactly one dial
attempt, whose outcome `dialOK` the network decides.  On failure sleep one
second and return `tempErr{}`; on success write the listener's `Name` as
the connection's first wire bytes, increment `established`, wrap the
connection in the health tracker and return it.  The last two components
report (dial attempts made, seconds slept). -/
def dialAccept (l : PoolListener) (dialOK : Bool) :
    DialResult × PoolListener × Nat × Nat :=
  if l.pool.established > l.pool.active then
    (.dialError .tempErr, l, 0, 1)
  else if dialOK then
    (.conn l.conns.length l.name,
      { l with conns := l.conns ++ [freshConn],
               pool := { l.pool with established := l.pool.established + 1 } },
      1, 0)
  else
    (.dialError .tempErr, l, 1, 1)

/-- `DialListener.Close` in progutil.go is `func (lis *DialListener) Close()
(err error) { return }`: it returns nil and leaves the listener untouched. -/
def dialListenerClose (l : PoolListener) : Option GoErr × PoolListener :=
  (none, l)

/-- A step of the whole pool: an `Accept` call (with its dial outcome) or an
operation on the `i`-th tracked connection. -/
inductive PoolOp where
  | accept (dialOK : Bool) : PoolOp
  | connOp (i : Nat) (op : ConnOp) : PoolOp
deriving DecidableEq, Repr

def poolStep (l : PoolListener) : PoolOp → PoolListener
  | .accept ok => (dialAccept l ok).2.1
  | .connOp i op =>
    match l.conns[i]? with
    | none => l
    | some c =>
      let r := connStep c l.pool op
      { l with conns := l.conns.set i r.1, pool := r.2 }

def poolRun (l : PoolListener) : List PoolOp → PoolListener :=
  List.foldl poolStep l

/-- The claim C4's invariant as stated: `established ≥ active` in every
state reachable by Accept successes and tracked-connection operations. -/
def poolCountersInvariant : Prop :=
  ∀ (name : List Byte) (trace : List PoolOp),
    (poolRun (initListener name) trace).pool.active ≤
      (poolRun (initListener name) trace).pool.established

/-- The step excluded by C4's amendment: a read that would run
`onceRead.Do` (first non-empty successful read) on a connection whose
terminal-error accounting has already fired. -/
def lateFirstRead (l : PoolListener) : PoolOp → Bool
  | .connOp i (.read n e) =>
    match l.conns[i]? with
    | some c => c.onceErr && !c.onceRead && decide (n ≠ 0) && decide (e ≠ .terminal)
    | none => false
  | _ => false

/-- A trace none of whose steps is a `lateFirstRead`. -/
def goodTrace (l : PoolListener) : List PoolOp → Bool
  | [] => true
  | op :: rest => !lateFirstRead l op && goodTrace (poolStep l op) rest

/-- Contribution of one tracked connection to `established`. -/
def connEst (c : ConnState) : Int := if c.onceErr then 0 else 1

/-- Contribution of one tracked connection to `active` (valid on traces
without late first reads). -/
def connAct (c : ConnState) : Int := if c.onceRead && !c.onceErr then 1 else 0

def estSum (cs : List ConnState) : Int := (cs.map connEst).sum

def actSum (cs : List ConnState) : Int := (cs.map connAct).sum

/-- The coupling invariant for the pool counters: each counter is the sum
of its per-connection contributions, and a connection's `active` field
agrees with its `onceRead` once-guard (they are only ever set together). -/
def Inv (l : PoolListener) : Prop :=
  l.pool.established = estSum l.conns ∧ l.pool.active = actSum l.conns ∧
    ∀ c ∈ l.conns, c.activeFlag = c.onceRead

/-! ### dialCommon, DialEva, DialEla (progutil.go) -/

/-- What `dialCommon`'s `select` observes: a connection received from the
slot channel, a nil received because the channel was closed, or the
`time.After(dur)` firing first. -/
inductive ChanRecv where
  | msg (c : Nat) : ChanRecv
  | closedChan : ChanRecv
  | timeout : ChanRecv
deriving DecidableEq, Repr

/-- `dialCommon`: a received nil (closed channel) yields the permanent
"dialer closing" `net.OpError`; a timeout yields
`context.DeadlineExceeded`; otherwise the received connection is
returned. -/
def dialCommon : ChanRecv → Except GoErr Nat
  | .msg c => .ok c
  | .closedChan => .error .opErrDialerClosing
  | .timeout => .error .deadlineExceeded

/-- How a wait on a registered slot resolves when the slot is empty at call
time: either a connection is stored during the wait (delivered directly to
the waiting receiver) or the timeout fires first. -/
inductive WaitOutcome where
  | arrival (c : Nat) : WaitOutcome
  | timeout : WaitOutcome
deriving DecidableEq, Repr

/-- What the channel receive of `dialCommon` yields against the slot's
buffered contents: the buffered connection if one is present, else whatever
the wait resolves to.  progutil.go never closes these channels, so the
nil/closed case cannot arise here. -/
def recvFromSlot (buf : List Nat) (w : WaitOutcome) : ChanRecv :=
  match buf with
  | c :: _ => .msg c
  | [] =>
    match w with
    | .arrival c => .msg c
    | .timeout => .timeout

/-- `DialEva`: look up the host registration; when missing, return the
"not registered" error at once — no slot is read or modified and none of
the timeout is waited (the Bool reports whether the call waited on a
slot).  When present, wait on the host's eva slot via `dialCommon`,
consuming the buffered connection if there is one. -/
def DialEva (s : PLState) (addr : String) (w : WaitOutcome) :
    Except GoErr Nat × PLState × Bool :=
  match lookupHost s.hosts addr with
  | none => (.error (.notRegistered addr), s, false)
  | some apc =>
    (dialCommon (recvFromSlot apc.eva w),
      { s with hosts := s.hosts.map (fun p =>
          if p.1 = addr then (p.1, ⟨p.2.eva.drop 1, p.2.ela⟩) else p) },
      true)

/-- `DialEla`, identical to `DialEva` on the ela slot. -/
def DialEla (s : PLState) (addr : String) (w : WaitOutcome) :
    Except GoErr Nat × PLState × Bool :=
  match lookupHost s.hosts addr with
  | none => (.error (.notRegistered addr), s, false)
  | some apc =>
    (dialCommon (recvFromSlot apc.ela w),
      { s with hosts := s.hosts.map (fun p =>
          if p.1 = addr then (p.1, ⟨p.2.eva, p.2.ela.drop 1⟩) else p) },
      true)

/-- The claim C6 as stated, for the cited `DialListener.Close`: after a
close, every accept call fails with a permanent error. -/
def closeMakesAcceptsFailPermanently : Prop :=
  ∀ (l : PoolListener) (ok : Bool),
    ∃ e, (dialAccept (dialListenerClose l).2 ok).1 = .dialError e ∧
      e.isTemporary = false

/-! ### SplitTLSListener (part_001) -/

/-- A connection as the splitter's accept loop sees it: whether it is a
`*tls.Conn`, whether its handshake succeeds, and the server name its
handshake negotiates. -/
structure TLSArrival where
  connId : Nat
  isTLS : Bool
  handshakeOK : Bool
  serverName : String
deriving DecidableEq, Repr

inductive SplitEvent where
  | acceptFail (e : GoErr) : SplitEvent
  | arrival (a : TLSArrival) : SplitEvent
deriving DecidableEq, Repr

/-- Splitter state: the matchers in registration order — each built by
`SplitSNI` from a server name and the index of its child queue — the child
queues (each a capacity-100 channel), and the conns the splitter closed. -/
structure SplitState where
  matchers : List (String × Nat)
  queues : List (List Nat)
  closedConns : List Nat
deriving DecidableEq, Repr

/-- `SplitSNI(sni)`: append a matcher for `sni` backed by a fresh
capacity-100 channel, returning the new child queue's index. -/
def splitSNI (s : SplitState) (sni : String) : SplitState × Nat :=
  ({ s with matchers := s.matchers ++ [(sni, s.queues.length)],
            queues := s.queues ++ [[]] },
    s.queues.length)

/-- The matcher loop of `Accept`: the first registered matcher whose server
name equals the negotiated one yields its channel. -/
def firstMatch : List (String × Nat) → String → Option Nat
  | [], _ => none
  | m :: rest, name => if name = m.1 then some m.2 else firstMatch rest name

/-- The `make(chan net.Conn, 100)` capacity of each child queue. -/
def queueCap : Nat := 100

/-- The non-blocking send `select { case found <- conn: default: }`:
enqueue when below capacity; otherwise fall through — the connection is
neither queued nor closed. -/
def routeToQueue (s : SplitState) (q : Nat) (c : Nat) : SplitState :=
  match s.queues[q]? with
  | none => s
  | some buf =>
    if buf.length < queueCap then { s with queues := s.queues.set q (buf ++ [c]) }
    else s

inductive SplitResult where
  | conn (connId : Nat) : SplitResult
  | acceptError (e : GoErr) : SplitResult
deriving DecidableEq, Repr

/-- `SplitTLSListener.Accept`: loop over the underlying acceptor's events;
propagate its errors; return non-TLS connections directly; close
connections failing the handshake and continue; send matched connections
into their child queue non-blockingly and continue; return unmatched
connections to the caller.  `none` models the loop still blocked on the
underlying acceptor. -/
def splitAccept (s : SplitState) : List SplitEvent → Option (SplitResult × SplitState)
  | [] => none
  | .acceptFail e :: _ => some (.acceptError e, s)
  | .arrival a :: rest =>
    if !a.isTLS then some (.conn a.connId, s)
    else if !a.handshakeOK then
      splitAccept { s with closedConns := a.connId :: s.closedConns } rest
    else
      match firstMatch s.matchers a.serverName with
      | some q => splitAccept (routeToQueue s q a.connId) rest
      | none => some (.conn a.connId, s)

/-- The claim C9's full-queue clause as stated: a handshaken connection
matched to a full child queue is closed. -/
def fullQueueClosesConn : Prop :=
  ∀ (s : SplitState) (a : TLSArrival) (q : Nat) (buf : List Nat)
    (rest : List SplitEvent) (r : SplitResult) (s' : SplitState),
    a.isTLS = true → a.handshakeOK = true →
    firstMatch s.matchers a.serverName = some q →
    s.queues[q]? = some buf → queueCap ≤ buf.length →
    splitAccept s (.arrival a :: rest) = some (r, s') →
    a.connId ∈ s'.closedConns

end Progutil

/-! ## Claim theorems -/

namespace Progutil

/-- C1: a connection whose initial bytes match no role token is returned as
a client connection whose reads deliver the consumed packet followed by the
remainder of the stream — byte-identical to the original stream, whether or
not the initial read was short or failed, and the listener state is
untouched. -/
theorem accept_client_replays_stream (s : PLState) (a : Arrival)
    (heva : a.stream.take a.firstReadLen ≠ evaToken)
    (hela : a.stream.take a.firstReadLen ≠ elaToken) :
    acceptOne s a = (.client a.connId a.stream, s) := by
  simp only [acceptOne, if_neg heva, if_neg hela, readerConnDelivers_eq,
    List.take_append_drop]

theorem accept_client_replays_stream_witness :
    ([1, 2, 3, 4].take 2 ≠ evaToken) ∧ ([1, 2, 3, 4].take 2 ≠ elaToken) ∧
      acceptOne ⟨[], []⟩ ⟨7, "10.0.0.5", [1, 2, 3, 4], 2, true⟩ =
        (.client 7 [1, 2, 3, 4], ⟨[], []⟩) :=
  ⟨by decide, by decide,
    accept_client_replays_stream ⟨[], []⟩ ⟨7, "10.0.0.5", [1, 2, 3, 4], 2, true⟩
      (by decide) (by decide)⟩

theorem slotStep_buf_length (s : SlotState) (st : SlotStep)
    (h : s.buf.length ≤ 1) : (slotStep s st).buf.length ≤ 1 := by
  obtain ⟨buf, closed, claimed⟩ := s
  simp only at h
  cases st with
  | drain =>
    cases buf with
    | nil => simp [slotStep]
    | cons old rest => simp only [slotStep, List.length_cons] at h ⊢; omega
  | send c =>
    cases buf with
    | nil => simp [slotStep]
    | cons b rest =>
      have hl : ¬ (b :: rest).length < 1 := by simp
      simpa [slotStep, if_neg hl] using h
  | claim =>
    cases buf with
    | nil => simp [slotStep]
    | cons c rest => simp only [slotStep, List.length_cons] at h ⊢; omega

/-- C2 counterexample: the claimant-race clause as stated is false.  From an
empty slot, a store begins (its drain finds nothing); another store then
fills the slot and a claimant drains it before the first store's send step;
the first store's send succeeds, so its connection is stored, not closed. -/
theorem claim_race_does_not_drop_new_conn : ¬ claimRaceDropsNewConn := by
  intro h
  exact absurd
    (h ⟨[], [], []⟩ [.drain, .send 2, .claim] 1 (by decide)) (by decide)

/-- C2 amended: (1) the channel never holds more than one unclaimed
connection, under every interleaving of drain, send and claim steps; (2)
storing a second connection while the first is still unclaimed closes the
first and leaves the second stored; (3) when another store has filled the
slot between this store's drain and send steps, the send closes the new
connection instead of blocking. -/
theorem slot_at_most_one_unclaimed :
    (∀ (s : SlotState) (steps : List SlotStep),
      s.buf.length ≤ 1 → (runSlot s steps).buf.length ≤ 1)
    ∧ (∀ (s : SlotState) (c0 c1 : Nat), s.buf = [c0] →
        c0 ∈ (runSlot s [.drain, .send c1]).closedConns ∧
          (runSlot s [.drain, .send c1]).buf = [c1])
    ∧ (∀ (s : SlotState) (c : Nat), 1 ≤ s.buf.length →
        slotStep s (.send c) = { s with closedConns := c :: s.closedConns }) := by
  refine ⟨?_, ?_, ?_⟩
  · intro s steps
    induction steps generalizing s with
    | nil => exact fun h => h
    | cons st rest ih =>
      intro h
      exact ih (slotStep s st) (slotStep_buf_length s st h)
  · intro s c0 c1 hb
    simp [runSlot, slotStep, hb, List.foldl]
  · intro s c hl
    have : ¬ s.buf.length < 1 := by omega
    simp [slotStep, this]

theorem slot_at_most_one_unclaimed_witness :
    ((runSlot ⟨[5], [], []⟩ [.send 6, .claim]).buf.length ≤ 1)
    ∧ (3 ∈ (runSlot ⟨[3], [], []⟩ [.drain, .send 4]).closedConns
        ∧ (runSlot ⟨[3], [], []⟩ [.drain, .send 4]).buf = [4])
    ∧ slotStep ⟨[9], [], []⟩ (.send 8) = ⟨[9], [8], []⟩ :=
  ⟨slot_at_most_one_unclaimed.1 ⟨[5], [], []⟩ [.send 6, .claim] (by decide),
    slot_at_most_one_unclaimed.2.1 ⟨[3], [], []⟩ 3 4 (by decide),
    slot_at_most_one_unclaimed.2.2 ⟨[9], [], []⟩ 8 (by decide)⟩

/-- C7 counterexample: a role-tagged connection from an unregistered address
is not closed — the code logs and returns, leaving the connection open. -/
theorem unregistered_role_conn_not_closed : ¬ unregisteredRoleConnClosed := by
  intro h
  exact absurd
    (h ⟨[], []⟩ ⟨7, "10.0.0.9", [69, 86, 65], 3, false⟩
      (Or.inl (by decide)) (by decide)) (by decide)

/-- C7 amended: on a role-token match from an address with no registration,
the classifier logs and abandons the connection without closing it — the
connection is neither stored, closed, nor delivered to any caller, the
listener state is unchanged, and Accept returns the retryable `tempErr` so
its caller's accept loop continues. -/
theorem unregistered_role_conn_dropped_open (s : PLState) (a : Arrival)
    (hrole : a.stream.take a.firstReadLen = evaToken ∨
      a.stream.take a.firstReadLen = elaToken)
    (hunreg : lookupHost s.hosts a.remoteHost = none) :
    acceptOne s a = (.acceptError .tempErr, s) ∧ GoErr.tempErr.isTemporary = true := by
  refine ⟨?_, rfl⟩
  rcases hrole with h | h
  · simp [acceptOne, h, storeConn, hunreg]
  · simp [acceptOne, h, storeConn, hunreg, evaToken, elaToken]

theorem unregistered_role_conn_dropped_open_witness :
    (([69, 76, 65, 1] : List Byte).take 3 = evaToken ∨
      ([69, 76, 65, 1] : List Byte).take 3 = elaToken)
    ∧ lookupHost (RegisterHost ⟨[], []⟩ "10.0.0.5").hosts "10.0.0.9" = none
    ∧ acceptOne (RegisterHost ⟨[], []⟩ "10.0.0.5")
        ⟨7, "10.0.0.9", [69, 76, 65, 1], 3, false⟩ =
        (.acceptError .tempErr, RegisterHost ⟨[], []⟩ "10.0.0.5") :=
  ⟨Or.inr (by decide), by decide,
    (unregistered_role_conn_dropped_open (RegisterHost ⟨[], []⟩ "10.0.0.5")
      ⟨7, "10.0.0.9", [69, 76, 65, 1], 3, false⟩ (Or.inr (by decide))
      (by decide)).1⟩

/-- C5 counterexample: the progutil `Accept` returns the retryable `tempErr`
for a role-tagged arrival even though the wrapped acceptor is healthy. -/
theorem accept_role_arrival_returns_temp_error : ¬ acceptNeverErrsOnRoleArrival := by
  intro h
  exact h (RegisterHost ⟨[], []⟩ "10.0.0.5")
    ⟨7, "10.0.0.5", [69, 86, 65, 9], 3, false⟩ (Or.inl (by decide))
    .tempErr (by decide)

/-- C5 amended: the part_001 variant's `Accept` loops internally — whenever
it returns, the result is either a client connection or an error of the
wrapped acceptor (and with a healthy acceptor it only ever returns a client
connection), with each server-classified arrival absorbed by the loop.  The
progutil variant's `Accept` instead handles one connection per call: a
role-tagged arrival is absorbed into the store and `Accept` returns the
retryable `tempErr` so the caller's accept loop continues, and a wrapped
acceptor failure is propagated unchanged. -/
theorem accept_loop_contract :
    (∀ (s : P1State) (events : List P1Event) (r : AcceptResult) (s' : P1State),
      p1Accept s events = some (r, s') →
        ((∃ cid d, r = .client cid d) ∨
          (∃ e, r = .acceptError e ∧ P1Event.acceptFail e ∈ events)))
    ∧ (∀ (s : P1State) (events : List P1Event) (r : AcceptResult) (s' : P1State),
      p1Accept s events = some (r, s') →
        (∀ e, P1Event.acceptFail e ∉ events) → ∃ cid d, r = .client cid d)
    ∧ (∀ (s : PLState) (a : Arrival),
      (a.stream.take a.firstReadLen = evaToken ∨
        a.stream.take a.firstReadLen = elaToken) →
      acceptOne s a =
        (.acceptError .tempErr, storeConn s a.connId a.remoteHost
          (a.stream.take a.firstReadLen)))
    ∧ (∀ (s : PLState) (e : GoErr), plAccept s (.acceptFail e) = (.acceptError e, s)) := by
  have key : ∀ (events : List P1Event) (s : P1State) (r : AcceptResult) (s' : P1State),
      p1Accept s events = some (r, s') →
        ((∃ cid d, r = .client cid d) ∨
          (∃ e, r = .acceptError e ∧ P1Event.acceptFail e ∈ events)) := by
    intro events
    induction events with
    | nil => intro s r s' h; simp [p1Accept] at h
    | cons ev rest ih =>
      intro s r s' h
      cases ev with
      | acceptFail e =>
        simp [p1Accept] at h
        exact Or.inr ⟨e, h.1.symm, by simp⟩
      | arrival a =>
        simp only [p1Accept] at h
        by_cases hc : (p1ScanConsume clientPreface a.stream a.readFailAt 0).1
        · rw [if_pos hc] at h
          simp at h
          exact Or.inl ⟨a.connId, _, h.1.symm⟩
        · rw [if_neg hc] at h
          rcases ih (p1Store s a.connId) r s' h with hcl | ⟨e, he, hmem⟩
          · exact Or.inl hcl
          · exact Or.inr ⟨e, he, by simp [hmem]⟩
  refine ⟨fun s events => key events s, ?_, ?_, ?_⟩
  · intro s events r s' h hno
    rcases key events s r s' h with hcl | ⟨e, _, hmem⟩
    · exact hcl
    · exact absurd hmem (hno e)
  · intro s a hrole
    rcases hrole with h | h
    · simp [acceptOne, h]
    · simp [acceptOne, h, evaToken, elaToken]
  · intro s e; rfl

theorem accept_loop_contract_witness :
    (p1Accept ⟨[], []⟩ [.arrival ⟨3, [80], none⟩, .arrival ⟨4, clientPreface, none⟩] =
        some (.client 4 clientPreface, ⟨[3], []⟩)) ∧
      (∃ cid d, (AcceptResult.client 4 clientPreface) = .client cid d) ∧
      acceptOne (RegisterHost ⟨[], []⟩ "10.0.0.5")
          ⟨7, "10.0.0.5", [69, 86, 65], 3, false⟩ =
        (.acceptError .tempErr,
          storeConn (RegisterHost ⟨[], []⟩ "10.0.0.5") 7 "10.0.0.5"
            (([69, 86, 65] : List Byte).take 3)) :=
  ⟨by decide,
    accept_loop_contract.2.1 ⟨[], []⟩
      [.arrival ⟨3, [80], none⟩, .arrival ⟨4, clientPreface, none⟩]
      (.client 4 clientPreface) ⟨[3], []⟩ (by decide)
      (fun e he => by simp at he),
    accept_loop_contract.2.2.1 (RegisterHost ⟨[], []⟩ "10.0.0.5")
      ⟨7, "10.0.0.5", [69, 86, 65], 3, false⟩ (Or.inl (by decide))⟩

theorem connRun_characterization (ops : List ConnOp) (c : ConnState) (p : Pool) :
    connRun c p ops =
      ({ activeFlag := c.activeFlag || (!c.onceRead && ops.any marksActive),
         onceErr := c.onceErr || ops.any terminalEvent,
         onceRead := c.onceRead || ops.any marksActive },
       { established := p.established - estDelta c ops,
         active := p.active + actIncDelta c ops - actDecDelta c ops }) := by
  induction ops generalizing c p with
  | nil =>
    simp [connRun, estDelta, actIncDelta, actDecDelta]
  | cons op rest ih =>
    obtain ⟨a, oe, orr⟩ := c
    rw [connRun]
    cases op with
    | read n e =>
      by_cases hn : n = 0 <;> cases e <;> cases a <;> cases oe <;> cases orr <;>
        simp only [connStep, fireErr, hn] <;>
        rw [ih] <;>
        simp [estDelta, actIncDelta, actDecDelta, terminalEvent, marksActive, hn,
          List.takeWhile] <;>
        split_ifs <;> simp_all
    | write e =>
      cases e <;> cases a <;> cases oe <;> cases orr <;>
        simp only [connStep, fireErr] <;>
        rw [ih] <;>
        simp [estDelta, actIncDelta, actDecDelta, terminalEvent, marksActive,
          List.takeWhile] <;>
        split_ifs <;> simp_all
    | close =>
      cases a <;> cases oe <;> cases orr <;>
        simp only [connStep, fireErr] <;>
        rw [ih] <;>
        simp [estDelta, actIncDelta, actDecDelta, terminalEvent, marksActive,
          List.takeWhile] <;>
        split_ifs <;> simp_all

/-- C3: from a freshly tracked connection, for every sequence of Read,
Write and Close operations, `established` ends exactly one lower than it
started as soon as the sequence contains a terminal event (a Read or Write
observing a terminal error, or a Close) — and is never decremented twice,
no matter how many further operations observe failures — while `active` is
decremented alongside it exactly when the connection had carried a byte
before its first terminal event (its single increment happening at the
first non-empty successful read). -/
theorem tracker_exactly_once_accounting (ops : List ConnOp) (p : Pool) :
    (connRun freshConn p ops).2.established =
        p.established - (if ops.any terminalEvent then 1 else 0)
    ∧ (connRun freshConn p ops).2.active =
        p.active + (if ops.any marksActive then 1 else 0)
          - (if ops.any terminalEvent && carriedBeforeFailure ops then 1 else 0) := by
  rw [connRun_characterization]
  constructor
  · simp [freshConn, estDelta]
  · simp [freshConn, actIncDelta, actDecDelta, carriedBeforeFailure]

theorem map_sum_set (f : ConnState → Int) (cs : List ConnState) (i : Nat)
    (c c' : ConnState) (h : cs[i]? = some c) :
    ((cs.set i c').map f).sum = (cs.map f).sum - f c + f c' := by
  induction cs generalizing i with
  | nil => simp at h
  | cons hd tl ih =>
    cases i with
    | zero =>
      simp only [List.getElem?_cons_zero] at h
      injection h with h
      subst h
      simp [List.set]
      ring
    | succ j =>
      simp only [List.getElem?_cons_succ] at h
      simp only [List.set, List.map_cons, List.sum_cons, ih j h]
      ring

theorem estSum_set (cs : List ConnState) (i : Nat) (c c' : ConnState)
    (h : cs[i]? = some c) :
    estSum (cs.set i c') = estSum cs - connEst c + connEst c' := by
  simp only [estSum]
  exact map_sum_set connEst cs i c c' h

theorem actSum_set (cs : List ConnState) (i : Nat) (c c' : ConnState)
    (h : cs[i]? = some c) :
    actSum (cs.set i c') = actSum cs - connAct c + connAct c' := by
  simp only [actSum]
  exact map_sum_set connAct cs i c c' h

theorem mem_of_mem_set {x b : ConnState} :
    ∀ {l : List ConnState} {n : Nat}, x ∈ l.set n b → x ∈ l ∨ x = b := by
  intro l
  induction l with
  | nil => intro n hx; simp [List.set] at hx
  | cons hd tl ih =>
    intro n hx
    cases n with
    | zero =>
      simp [List.set] at hx
      rcases hx with hx | hx
      · exact Or.inr hx
      · exact Or.inl (List.mem_cons_of_mem _ hx)
    | succ m =>
      simp [List.set] at hx
      rcases hx with hx | hx
      · exact Or.inl (by simp [hx])
      · rcases ih hx with h | h
        · exact Or.inl (List.mem_cons_of_mem _ h)
        · exact Or.inr h

theorem inv_step (l : PoolListener) (op : PoolOp) (hI : Inv l)
    (hg : lateFirstRead l op = false) : Inv (poolStep l op) := by
  obtain ⟨hE, hA, hF⟩ := hI
  cases op with
  | accept ok =>
    by_cases hsp : l.pool.established > l.pool.active
    · simpa [poolStep, dialAccept, hsp, Inv] using ⟨hE, hA, hF⟩
    · cases ok with
      | false => simpa [poolStep, dialAccept, hsp, Inv] using ⟨hE, hA, hF⟩
      | true =>
        have hd : poolStep l (.accept true) =
            { l with conns := l.conns ++ [freshConn],
                     pool := { l.pool with established := l.pool.established + 1 } } := by
          simp [poolStep, dialAccept, hsp]
        rw [hd]
        refine ⟨?_, ?_, ?_⟩
        · simp [estSum, connEst, freshConn, hE]
        · simp [actSum, connAct, freshConn, hA]
        · intro c hc
          rcases List.mem_append.mp hc with hc | hc
          · exact hF c hc
          · simp at hc
            simp [hc, freshConn]
  | connOp i op' =>
    cases hget : l.conns[i]? with
    | none =>
      have hd : poolStep l (.connOp i op') = l := by simp [poolStep, hget]
      rw [hd]
      exact ⟨hE, hA, hF⟩
    | some c =>
      have hmem : c ∈ l.conns := List.getElem?_mem hget
      have haf : c.activeFlag = c.onceRead := hF c hmem
      have hstep : poolStep l (.connOp i op') =
          { l with conns := l.conns.set i (connStep c l.pool op').1,
                   pool := (connStep c l.pool op').2 } := by
        simp [poolStep, hget]
      rw [hstep]
      have hflag : ∀ (c' : ConnState), c'.activeFlag = c'.onceRead →
          ∀ x ∈ l.conns.set i c', x.activeFlag = x.onceRead := by
        intro c' hc' x hx
        rcases mem_of_mem_set hx with hx | hx
        · exact hF x hx
        · rw [hx]; exact hc'
      have hfire : c.onceErr = false →
          Inv { l with conns := l.conns.set i (fireErr c l.pool).1,
                       pool := (fireErr c l.pool).2 } := by
        intro hoe
        refine ⟨?_, ?_, hflag _ (by simp [fireErr, hoe, haf])⟩
        · simp only [fireErr, hoe, Bool.false_eq_true, if_false]
          rw [estSum_set l.conns i c _ hget]
          simp [connEst, hoe, hE]
        · simp only [fireErr, hoe, Bool.false_eq_true, if_false]
          rw [actSum_set l.conns i c _ hget, haf]
          cases horr : c.onceRead <;> simp [horr, connAct, hoe, hA]
      have hfired : c.onceErr = true →
          Inv { l with conns := l.conns.set i (fireErr c l.pool).1,
                       pool := (fireErr c l.pool).2 } := by
        intro hoe
        refine ⟨?_, ?_, hflag _ (by simp [fireErr, hoe, haf])⟩
        · simp only [fireErr, hoe, if_true]
          rw [estSum_set l.conns i c _ hget]
          simp [hE]
        · simp only [fireErr, hoe, if_true]
          rw [actSum_set l.conns i c _ hget]
          simp [hA]
      have hnoop : Inv { l with conns := l.conns.set i c, pool := l.pool } := by
        refine ⟨?_, ?_, hflag _ haf⟩
        · rw [estSum_set l.conns i c _ hget]; simp [hE]
        · rw [actSum_set l.conns i c _ hget]; simp [hA]
      cases op' with
      | close =>
        simp only [connStep]
        cases hoe : c.onceErr
        · exact hfire hoe
        · exact hfired hoe
      | write e =>
        by_cases he : e = ErrKind.terminal
        · simp only [connStep, he, if_pos rfl]
          cases hoe : c.onceErr
          · exact hfire hoe
          · exact hfired hoe
        · simpa only [connStep, if_neg he] using hnoop
      | read n e =>
        by_cases he : e = ErrKind.terminal
        · simp only [connStep, he, if_pos rfl]
          cases hoe : c.onceErr
          · exact hfire hoe
          · exact hfired hoe
        · by_cases hn : n = 0
          · simpa only [connStep, if_neg he, hn, if_pos rfl] using hnoop
          · cases horr : c.onceRead
            · have hoe : c.onceErr = false := by
                by_contra hoe
                rw [Bool.not_eq_false] at hoe
                simp [lateFirstRead, hget, hoe, horr, hn, he] at hg
              simp only [connStep, if_neg he, if_neg hn, horr, Bool.false_eq_true,
                if_false]
              refine ⟨?_, ?_, hflag _ (by simp)⟩
              · rw [estSum_set l.conns i c _ hget]
                simp [connEst, hE]
              · rw [actSum_set l.conns i c _ hget]
                simp [connAct, horr, hoe, hA]
            · simpa only [connStep, if_neg he, if_neg hn, horr, if_true] using hnoop

theorem inv_run (l : PoolListener) (trace : List PoolOp) (hI : Inv l)
    (hg : goodTrace l trace = true) : Inv (poolRun l trace) := by
  induction trace generalizing l with
  | nil => exact hI
  | cons op rest ih =>
    simp only [goodTrace, Bool.and_eq_true, Bool.not_eq_true'] at hg
    exact ih (poolStep l op) (inv_step l op hI hg.1) hg.2

/-- C4 counterexample: an accepted connection whose Write observes a
terminal error (firing the accounting while it never carried a byte)
followed by a successful non-empty Read leaves `established = 0` but
`active = 1`. -/
theorem pool_invariant_violated : ¬ poolCountersInvariant := by
  intro h
  exact absurd
    (h [67] [.accept true, .connOp 0 (.write .terminal), .connOp 0 (.read 1 .ok)])
    (by decide)

/-- C4 amended: `established ≥ active` holds in every state reached by a
sequence of Accept successes and tracked-connection operations in which no
connection's first non-empty successful read happens after that
connection's terminal-error accounting has already fired; and — with no
restriction — `active` is only ever incremented by a tracked connection's
first successful non-empty read. -/
theorem established_ge_active_on_good_traces (name : List Byte)
    (trace : List PoolOp) (hg : goodTrace (initListener name) trace = true) :
    ((poolRun (initListener name) trace).pool.active ≤
      (poolRun (initListener name) trace).pool.established)
    ∧ (∀ (l : PoolListener) (op : PoolOp),
        l.pool.active < (poolStep l op).pool.active →
        ∃ i n e c, op = .connOp i (.read n e) ∧ n ≠ 0 ∧ e ≠ ErrKind.terminal ∧
          l.conns[i]? = some c ∧ c.onceRead = false) := by
  constructor
  · have hI : Inv (poolRun (initListener name) trace) :=
      inv_run _ trace ⟨by simp [initListener, estSum], by simp [initListener, actSum],
        by simp [initListener]⟩ hg
    obtain ⟨hE, hA, _⟩ := hI
    rw [hE, hA]
    exact List.sum_le_sum (by
      intro x _
      simp only [connAct, connEst]
      split_ifs <;> simp_all)
  · intro l op hlt
    cases op with
    | accept ok =>
      exfalso
      by_cases hsp : l.pool.established > l.pool.active
      · simp [poolStep, dialAccept, hsp] at hlt
      · cases ok <;> simp [poolStep, dialAccept, hsp] at hlt
    | connOp i op' =>
      cases hget : l.conns[i]? with
      | none =>
        exfalso
        simp [poolStep, hget] at hlt
      | some c =>
        have hstep : poolStep l (.connOp i op') =
            { l with conns := l.conns.set i (connStep c l.pool op').1,
                     pool := (connStep c l.pool op').2 } := by
          simp [poolStep, hget]
        rw [hstep] at hlt
        cases op' with
        | close =>
          exfalso
          simp only [connStep, fireErr] at hlt
          split_ifs at hlt <;> dsimp only at hlt <;> omega
        | write e =>
          exfalso
          simp only [connStep, fireErr] at hlt
          split_ifs at hlt <;> dsimp only at hlt <;> omega
        | read n e =>
          by_cases he : e = ErrKind.terminal
          · exfalso
            simp only [connStep, fireErr] at hlt
            rw [if_pos he] at hlt
            split_ifs at hlt <;> dsimp only at hlt <;> omega
          · by_cases hn : n = 0
            · exfalso
              simp only [connStep] at hlt
              rw [if_neg he, if_pos hn] at hlt
              dsimp only at hlt
              omega
            · by_cases horr : c.onceRead = true
              · exfalso
                simp only [connStep] at hlt
                rw [if_neg he, if_neg hn, if_pos horr] at hlt
                dsimp only at hlt
                omega
              · exact ⟨i, n, e, c, rfl, hn, he, hget, by simpa using horr⟩

theorem established_ge_active_on_good_traces_witness :
    (goodTrace (initListener [67])
        [.accept true, .connOp 0 (.read 5 .ok), .connOp 0 .close] = true)
    ∧ ((poolRun (initListener [67])
        [.accept true, .connOp 0 (.read 5 .ok), .connOp 0 .close]).pool.active ≤
      (poolRun (initListener [67])
        [.accept true, .connOp 0 (.read 5 .ok), .connOp 0 .close]).pool.established) :=
  ⟨by decide,
    (established_ge_active_on_good_traces [67]
      [.accept true, .connOp 0 (.read 5 .ok), .connOp 0 .close] (by decide)).1⟩

/-- C8: when `established == active` (no spare connection), `Accept` makes
exactly one outbound dial attempt; on success it writes the listener's
`Name` as the connection's first wire bytes, increments `established`
(only), appends the connection to the tracked pool wrapped fresh in the
health tracker, and returns it without sleeping; on failure it returns the
retryable `tempErr` after a one-second sleep, leaving the listener
unchanged. -/
theorem dial_accept_one_attempt (l : PoolListener) (ok : Bool)
    (h : l.pool.established = l.pool.active) :
    (dialAccept l ok).2.2.1 = 1
    ∧ (ok = true → dialAccept l ok =
        (.conn l.conns.length l.name,
          { l with conns := l.conns ++ [freshConn],
                   pool := { l.pool with established := l.pool.established + 1 } },
          1, 0))
    ∧ (ok = false → dialAccept l ok = (.dialError .tempErr, l, 1, 1)
        ∧ GoErr.tempErr.isTemporary = true) := by
  have hsp : ¬ l.pool.established > l.pool.active := by omega
  refine ⟨?_, ?_, ?_⟩
  · cases ok <;> simp [dialAccept, hsp]
  · intro hok; simp [dialAccept, hsp, hok]
  · intro hok; simp [dialAccept, hsp, hok, GoErr.isTemporary]

theorem dial_accept_one_attempt_witness :
    ((initListener [67]).pool.established = (initListener [67]).pool.active)
    ∧ (dialAccept (initListener [67]) true).2.2.1 = 1
    ∧ dialAccept (initListener [67]) true =
        (.conn 0 [67], ⟨[67], [freshConn], ⟨1, 0⟩⟩, 1, 0)
    ∧ dialAccept (initListener [67]) false =
        (.dialError .tempErr, initListener [67], 1, 1) :=
  ⟨by decide,
    (dial_accept_one_attempt (initListener [67]) true (by decide)).1,
    (dial_accept_one_attempt (initListener [67]) true (by decide)).2.1 rfl,
    ((dial_accept_one_attempt (initListener [67]) false (by decide)).2.2 rfl).1⟩

/-- C6 counterexample: after `DialListener.Close`, an `Accept` whose dial
succeeds returns a connection, not a permanent error — `Close` is a no-op
(`func (lis *DialListener) Close() (err error) { return }`). -/
theorem close_does_not_fail_accepts : ¬ closeMakesAcceptsFailPermanently := by
  intro h
  obtain ⟨e, he, -⟩ := h (initListener [67]) true
  simp [dialAccept, dialListenerClose, initListener] at he

/-- C6 amended: progutil's `DialListener.Close` returns nil and changes
nothing — every subsequent (or concurrently blocked) `Accept` behaves
exactly as if `Close` had never been called; and in `dialCommon`, a waiter
whose slot channel is closed (receiving nil) fails with the permanent,
non-temporary "dialer closing" `net.OpError`, while a waiter whose timeout
elapses fails with `context.DeadlineExceeded`, which is temporary. -/
theorem close_noop_and_dial_error_classes :
    (∀ l : PoolListener, dialListenerClose l = (none, l))
    ∧ (∀ (l : PoolListener) (ok : Bool),
        dialAccept (dialListenerClose l).2 ok = dialAccept l ok)
    ∧ (dialCommon .closedChan = .error .opErrDialerClosing
        ∧ GoErr.opErrDialerClosing.isTemporary = false)
    ∧ (dialCommon .timeout = .error .deadlineExceeded
        ∧ GoErr.deadlineExceeded.isTemporary = true) :=
  ⟨fun _ => rfl, fun _ _ => rfl, ⟨rfl, rfl⟩, ⟨rfl, rfl⟩⟩

/-- C9 counterexample: a handshaken connection matched to a full child
queue is dropped without being closed — the non-blocking send's `default`
branch does nothing, so the connection is neither queued, closed, nor
delivered. -/
theorem full_queue_drops_without_closing : ¬ fullQueueClosesConn := by
  intro h
  exact absurd
    (h ⟨[("svcA", 0)], [List.replicate 100 0], []⟩ ⟨7, true, true, "svcA"⟩ 0
      (List.replicate 100 0) [.acceptFail .eof] (.acceptError .eof)
      ⟨[("svcA", 0)], [List.replicate 100 0], []⟩ rfl rfl (by decide) (by decide)
      (by decide) (by decide))
    (by decide)

/-- C9 amended: matchers are evaluated in registration order (`firstMatch`
is exactly the first registered entry for the negotiated name), the first
match routes the connection non-blockingly into its child's capacity-100
queue in acceptance order; when that queue is full the connection is
dropped — left unqueued, undelivered, and (unlike the handshake-failure
path) not closed — rather than blocking the accept loop; and when no
matcher fires the handshaken connection is returned to the splitter's own
caller. -/
theorem split_routes_in_registration_order :
    (∀ (ms : List (String × Nat)) (name : String),
      firstMatch ms name = (ms.find? (fun p => name = p.1)).map Prod.snd)
    ∧ (∀ (s : SplitState) (a : TLSArrival) (rest : List SplitEvent) (q : Nat)
        (buf : List Nat),
        a.isTLS = true → a.handshakeOK = true →
        firstMatch s.matchers a.serverName = some q →
        s.queues[q]? = some buf →
        (buf.length < queueCap →
          splitAccept s (.arrival a :: rest) =
            splitAccept { s with queues := s.queues.set q (buf ++ [a.connId]) } rest)
        ∧ (queueCap ≤ buf.length →
          splitAccept s (.arrival a :: rest) = splitAccept s rest))
    ∧ (∀ (s : SplitState) (a : TLSArrival) (rest : List SplitEvent),
        a.isTLS = true → a.handshakeOK = true →
        firstMatch s.matchers a.serverName = none →
        splitAccept s (.arrival a :: rest) = some (.conn a.connId, s)) := by
  refine ⟨?_, ?_, ?_⟩
  · intro ms name
    induction ms with
    | nil => simp [firstMatch]
    | cons m rest ih =>
      by_cases hm : name = m.1
      · simp [firstMatch, List.find?, hm]
      · simp only [firstMatch, if_neg hm, List.find?]
        rw [ih]
        simp [show (decide (name = m.1)) = false by simp [hm]]
  · intro s a rest q buf hTLS hHS hm hq
    constructor
    · intro hlt
      simp [splitAccept, hTLS, hHS, hm, routeToQueue, hq, hlt]
    · intro hge
      have hnl : ¬ buf.length < queueCap := by omega
      simp [splitAccept, hTLS, hHS, hm, routeToQueue, hq, hnl]
  · intro s a rest hTLS hHS hm
    simp [splitAccept, hTLS, hHS, hm]

theorem split_routes_in_registration_order_witness :
    (splitAccept ⟨[("svcA", 0)], [[]], []⟩
        [.arrival ⟨7, true, true, "svcA"⟩, .acceptFail .eof] =
      splitAccept ⟨[("svcA", 0)], [[7]], []⟩ [.acceptFail .eof])
    ∧ (splitAccept ⟨[("svcA", 0)], [List.replicate 100 9], []⟩
        [.arrival ⟨7, true, true, "svcA"⟩, .acceptFail .eof] =
      splitAccept ⟨[("svcA", 0)], [List.replicate 100 9], []⟩ [.acceptFail .eof])
    ∧ splitAccept ⟨[("svcA", 0)], [[]], []⟩ [.arrival ⟨8, true, true, "svcB"⟩] =
        some (.conn 8, ⟨[("svcA", 0)], [[]], []⟩) :=
  ⟨(split_routes_in_registration_order.2.1 ⟨[("svcA", 0)], [[]], []⟩
      ⟨7, true, true, "svcA"⟩ [.acceptFail .eof] 0 [] rfl rfl (by decide)
      (by decide)).1 (by decide),
    (split_routes_in_registration_order.2.1 ⟨[("svcA", 0)], [List.replicate 100 9], []⟩
      ⟨7, true, true, "svcA"⟩ [.acceptFail .eof] 0 (List.replicate 100 9) rfl rfl
      (by decide) (by decide)).2 (by decide),
    split_routes_in_registration_order.2.2 ⟨[("svcA", 0)], [[]], []⟩
      ⟨8, true, true, "svcB"⟩ [] rfl rfl (by decide)⟩

/-- C10: `DialEva`/`DialEla` on an address never passed to `RegisterHost`
returns the "not registered" error at once — without waiting any part of
the timeout and without claiming from or modifying any handoff slot (the
listener state is returned untouched) — whereas on a registered address the
call waits on the matching slot, its outcome decided by `dialCommon`
against that slot's channel. -/
theorem dial_unregistered_immediate (s : PLState) (addr : String)
    (w : WaitOutcome) (h : lookupHost s.hosts addr = none) :
    DialEva s addr w = (.error (.notRegistered addr), s, false)
    ∧ DialEla s addr w = (.error (.notRegistered addr), s, false)
    ∧ (∀ (s' : PLState) (addr' : String) (w' : WaitOutcome) (apc : Chans),
        lookupHost s'.hosts addr' = some apc →
        ((DialEva s' addr' w').2.2 = true ∧
          (DialEva s' addr' w').1 = dialCommon (recvFromSlot apc.eva w') ∧
          (DialEla s' addr' w').2.2 = true ∧
          (DialEla s' addr' w').1 = dialCommon (recvFromSlot apc.ela w'))) := by
  refine ⟨?_, ?_, ?_⟩
  · simp [DialEva, h]
  · simp [DialEla, h]
  · intro s' addr' w' apc h'
    refine ⟨?_, ?_, ?_, ?_⟩ <;> simp [DialEva, DialEla, h']

theorem dial_unregistered_immediate_witness :
    (lookupHost (RegisterHost ⟨[], []⟩ "10.0.0.5").hosts "10.0.0.9" = none)
    ∧ DialEva (RegisterHost ⟨[], []⟩ "10.0.0.5") "10.0.0.9" .timeout =
        (.error (.notRegistered "10.0.0.9"), RegisterHost ⟨[], []⟩ "10.0.0.5", false)
    ∧ DialEla (RegisterHost ⟨[], []⟩ "10.0.0.5") "10.0.0.9" .timeout =
        (.error (.notRegistered "10.0.0.9"), RegisterHost ⟨[], []⟩ "10.0.0.5", false) :=
  ⟨by decide,
    (dial_unregistered_immediate (RegisterHost ⟨[], []⟩ "10.0.0.5") "10.0.0.9"
      .timeout (by decide)).1,
    (dial_unregistered_immediate (RegisterHost ⟨[], []⟩ "10.0.0.5") "10.0.0.9"
      .timeout (by decide)).2.1⟩

end Progutil
